import Mathlib

/-
Shallow embedding of the TrustMetrics component:
  - frontend/src/components/TrustMetrics.jsx (revision A)
  - the second revision of the same component (unnamed source, revision B)
JavaScript numbers are modelled as exact rationals, strings as Lean strings,
and the browser side (fetch outcomes, IntersectionObserver callbacks, animation
frame clocks) as explicit parameters and event lists. Number-to-string
conversion is modelled in its fixed-notation range only (JS switches to
exponential notation at 10^21), and binary64 rounding is idealized as exact;
the string-level round-trip theorem therefore carries a 15-significant-digit
bound on the numeral, the range on which the exact model and binary64
formatting provably agree.
-/

/-! ### Decimal digit rendering (model of JS number-to-string conversion) -/

/-- The character for a decimal digit value. -/
def digitChar (d : Nat) : Char := Char.ofNat (48 + d)

/-- Numeric value of a digit character. -/
def dval (c : Char) : Nat := c.toNat - 48

/-- Value of a big-endian string of decimal digit characters
    (what `parseFloat` computes on the digits of the regex match). -/
def digitsVal (l : List Char) : Nat := l.foldl (fun a c => 10 * a + dval c) 0

/-- Fuel-driven rendering of a natural number in decimal, most significant digit
    first. The fuel only drives termination; `natDigits` always supplies enough. -/
def natDigitsGo : Nat → Nat → List Char
  | 0, _ => []
  | fuel + 1, n =>
    if n < 10 then [digitChar n] else natDigitsGo fuel (n / 10) ++ [digitChar (n % 10)]

/-- Decimal rendering of a natural number (model of JS `Number.prototype.toString`
    on a nonnegative integer). -/
def natDigits (n : Nat) : List Char := natDigitsGo (n + 1) n

/-- The last `d` decimal digits of `v`, zero padded to width `d`
    (the fractional-digit block produced by `toFixed`). -/
def padDigits : Nat → Nat → List Char
  | 0, _ => []
  | d + 1, v => padDigits d (v / 10) ++ [digitChar (v % 10)]

/-! ### JS string primitives used by `parseNumeric` -/

/-- ECMAScript WhiteSpace and LineTerminator code points: the set of characters
    removed by `String.prototype.trim`. -/
def isJSSpace (c : Char) : Bool :=
  c = ' ' || c = '\t' || c = '\n' || c = '\r' || c = '\x0B' || c = '\x0C' ||
  c = '\u00A0' || c = '\u1680' || ('\u2000' ≤ c && c ≤ '\u200A') ||
  c = '\u2028' || c = '\u2029' || c = '\u202F' || c = '\u205F' ||
  c = '\u3000' || c = '\uFEFF'

/-- ECMAScript LineTerminator code points: `.` in a regular expression without
    the `s` flag matches any character except these. -/
def isLineTerm (c : Char) : Bool := c = '\n' || c = '\r' || c = '\u2028' || c = '\u2029'

/-- Model of `String.prototype.trim`: drop leading and trailing whitespace. -/
def jsTrim (l : List Char) : List Char :=
  ((l.dropWhile isJSSpace).reverse.dropWhile isJSSpace).reverse

/-! ### `parseNumeric` (revision A, lines 26-34) -/

/-- The record `parseNumeric` returns. -/
structure ParseResult where
  n : ℚ
  decimals : Nat
  suffix : String
  deriving DecidableEq

/-- Model of `parseNumeric` on a string argument. The regex
    `^([0-9]+(?:\.[0-9]+)?)(.*)$` applied to the trimmed string is embedded by
    its ECMAScript semantics: group 1 greedily takes the leading digit run and,
    when a dot followed by at least one digit comes next, the dot and that digit
    run; group 2 (`.*` up to `$`, no `s` flag) then has to cover the whole
    remainder, which is possible exactly when no LineTerminator survives
    trimming — otherwise the whole match fails and the original (untrimmed)
    string is returned as the suffix. `parseFloat` on the matched numeral is
    exact here (modelled in ℚ), so the `isNaN` guard never fires. -/
def parseNumeric (s : String) : ParseResult :=
  if s = "" then ⟨0, 0, ""⟩
  else
    let t := jsTrim s.data
    let ds := t.takeWhile Char.isDigit
    if ds = [] || t.any isLineTerm then ⟨0, 0, s⟩
    else
      match t.drop ds.length with
      | '.' :: r2 =>
        let fs := r2.takeWhile Char.isDigit
        if fs = [] then ⟨(digitsVal ds : ℚ), 0, String.mk ('.' :: r2)⟩
        else ⟨(digitsVal ds : ℚ) + (digitsVal fs : ℚ) / 10 ^ fs.length, fs.length,
              String.mk (r2.drop fs.length)⟩
      | rest => ⟨(digitsVal ds : ℚ), 0, String.mk rest⟩

/-- `parseNumeric` including the first guard `!targetStr || typeof targetStr
    !== 'string'`: `none` stands for a non-string argument (any such value takes
    the first return, as does the empty string, the only falsy string). -/
def parseNumericJS : Option String → ParseResult
  | none => ⟨0, 0, ""⟩
  | some s => parseNumeric s

/-! ### Easing and the count-up loop (revision A, lines 35-71) -/

/-- Model of `easeOutQuad` (line 35). -/
def easeOutQuad (t : ℚ) : ℚ := 1 - (1 - t) * (1 - t)

/-- Model of JS `Math.round`: round half toward positive infinity. -/
def jsMathRound (q : ℚ) : ℤ := ⌊q + 1 / 2⌋

/-- Decimal rendering of an integer: JS `Number.prototype.toString` in its
    fixed-notation range `|z| < 10^21`. At and beyond that cutoff JS switches to
    exponential notation (`(1e21).toString()` is `"1e+21"`), a branch this model
    does not cover: every theorem below that formats through `intRepr` carries a
    15-significant-digit bound on the target numeral, which keeps the value
    below `10^15` — inside the fixed-notation range and exactly representable
    in binary64, so the exact integer here is the double JS prints. -/
def intRepr (z : ℤ) : String :=
  if z < 0 then String.mk ('-' :: natDigits z.natAbs) else String.mk (natDigits z.toNat)

/-- Model of `Number.prototype.toFixed d` for `d > 0` on nonnegative values
    below the `10^21` cutoff (at and above it, `toFixed` falls back to
    `ToString(x)` in exponential notation, a branch this model does not cover):
    ECMAScript picks the integer `m` with `m / 10^d` closest to the value, ties
    to the larger `m`, then prints `m` split at the decimal point with the
    fraction zero-padded to `d` digits. The value is taken as an exact rational
    where JS holds a binary64 double; under the 15-significant-digit bound the
    round-trip theorems impose, `|double - rational| * 10^d < 2^-52 * 10^15 <
    1/2`, so JS picks the same `m` from the rounded double as this model picks
    from the exact value. -/
def jsToFixed (q : ℚ) (d : Nat) : String :=
  let m := (⌊q * 10 ^ d + 1 / 2⌋).toNat
  String.mk (natDigits (m / 10 ^ d)) ++ "." ++ String.mk (padDigits d (m % 10 ^ d))

/-- One frame of the `step` closure of `useCountUp` (lines 51-64) at clock `now`,
    for a frame at or after `startTime`: the text that frame stores. -/
def countUpFrame (targetStr : String) (now startTime duration : ℚ) : String :=
  let p := parseNumeric targetStr
  let t := min 1 ((now - startTime) / duration)
  let current := p.n * easeOutQuad t
  (if 0 < p.decimals then jsToFixed current p.decimals
   else intRepr (jsMathRound current)) ++ p.suffix

/-- The text `useCountUp` (lines 37-71) exposes: while `start` is false the
    effect resets the state to the target string; once started, frames that run
    before `startTime` leave the initial text (the target string) in place, and
    later frames store the frame text. -/
def useCountUpDisplay (targetStr : String) (start : Bool) (now startTime duration : ℚ) :
    String :=
  if start = false then targetStr
  else if now < startTime then targetStr
  else countUpFrame targetStr now startTime duration

/-- The numeric value a frame displays before formatting: `n * easeOutQuad t`
    with `t` the clamped progress. -/
def displayedValue (n now startTime duration : ℚ) : ℚ :=
  n * easeOutQuad (min 1 ((now - startTime) / duration))

/-! ### Data model, fallback constant and the fetch effect (revision A) -/

/-- One metric tuple as served by the API or the fallback constant. -/
structure MetricItem where
  key : String
  label : String
  value : String
  icon : String
  deriving DecidableEq

/-- The `items` property of a fetched JSON object: absent, present but falsy,
    present and truthy but not an array, or an array of items. -/
inductive ItemsField where
  | absent
  | falsy
  | truthyNonArray
  | arr (xs : List MetricItem)
  deriving DecidableEq

/-- A metrics object: the successfully parsed JSON body, or the fallback. -/
structure MetricsObj where
  id : String
  updated_at : String
  items : ItemsField
  deriving DecidableEq

/-- The four fallback tuples of `defaultMetrics.items` (lines 17-22). -/
def defaultItems : List MetricItem :=
  [⟨"rating", "تقييم العملاء", "4.9/5", "Star"⟩,
   ⟨"shipments", "عمليات الشحن", "120K+", "Zap"⟩,
   ⟨"downloads", "عدد التحميلات", "85K+", "Download"⟩,
   ⟨"uptime", "زمن الاستجابة", "1.2s", "Gauge"⟩]

/-- `defaultMetrics` (lines 14-23); `updated_at` is `new Date().toISOString()`,
    passed in as `now`. -/
def defaultMetrics (now : String) : MetricsObj := ⟨"fallback", now, .arr defaultItems⟩

/-- A parsed JSON body: `null`, another falsy primitive, or an object. -/
inductive FetchedJson where
  | jnull
  | jfalsyPrim
  | jobj (o : MetricsObj)
  deriving DecidableEq

/-- What one fetch of the metrics URL can come to: the 3000 ms timer fires and
    aborts it, the network errors, or a response arrives with a status and body. -/
inductive FetchOutcome where
  | timeoutAbort
  | networkError
  | response (status : Nat) (body : FetchedJson)
  deriving DecidableEq

/-- `Response.ok`: status in the inclusive range 200-299. -/
def httpOk (status : Nat) : Bool := 200 ≤ status && status < 300

/-- A request as issued by the mount effect: URL and abort-timer delay in ms. -/
structure Request where
  url : String
  timeoutMs : Nat
  deriving DecidableEq

/-- The requests the mount effect (lines 116-135) issues over the whole mount:
    its dependency array is `[]` so it runs once, and its body performs a single
    `fetch` guarded by a single 3000 ms abort timer; neither the catch nor the
    finally block issues another request. -/
def mountRequests (apiBase : String) : List Request := [⟨apiBase ++ "/api/metrics", 3000⟩]

/-- The data the mount effect stores (lines 117-133): the response object on
    success, `defaultMetrics` on every caught error (abort, network error,
    `!res.ok` thrown as `HTTP status`, and `!json || !json.items` thrown as
    `Invalid payload`). -/
def fetchMetricsData (now : String) : FetchOutcome → MetricsObj
  | .timeoutAbort => defaultMetrics now
  | .networkError => defaultMetrics now
  | .response status body =>
    if httpOk status then
      match body with
      | .jnull => defaultMetrics now
      | .jfalsyPrim => defaultMetrics now
      | .jobj o =>
        match o.items with
        | .absent => defaultMetrics now
        | .falsy => defaultMetrics now
        | _ => o
    else defaultMetrics now

/-- Line 175: the rendered list,
    `(data && Array.isArray(data.items) ? data.items : defaultMetrics.items).slice(0, 4)`. -/
def renderItems (data : Option MetricsObj) : List MetricItem :=
  (match data with
   | some d =>
     match d.items with
     | .arr xs => xs
     | _ => defaultItems
   | none => defaultItems).take 4

/-! ### Icon lookup (revision A, lines 4-9 and 75) -/

/-- The four icon components imported from lucide-react. -/
inductive IconComp where
  | star
  | zap
  | download
  | gauge
  deriving DecidableEq

/-- A value the property read `iconMap[k]` can surface: one of the four own
    properties, or a property inherited from `Object.prototype` (always a
    function or an object, hence truthy), since the object literal
    `{ Star, Zap, Download, Gauge }` has `Object.prototype` as its prototype. -/
inductive IconLookup where
  | icon (i : IconComp)
  | protoRef (name : String)
  deriving DecidableEq

/-- The property names every plain object literal inherits from
    `Object.prototype`. -/
def objectProtoProps : List String :=
  ["constructor", "hasOwnProperty", "isPrototypeOf", "propertyIsEnumerable",
   "toLocaleString", "toString", "valueOf", "__proto__", "__defineGetter__",
   "__defineSetter__", "__lookupGetter__", "__lookupSetter__"]

/-- `iconMap[k]` (lines 4-9): own properties first, then the prototype chain,
    `none` for `undefined`. -/
def iconMapGet (k : String) : Option IconLookup :=
  if k = "Star" then some (.icon .star)
  else if k = "Zap" then some (.icon .zap)
  else if k = "Download" then some (.icon .download)
  else if k = "Gauge" then some (.icon .gauge)
  else if k ∈ objectProtoProps then some (.protoRef k)
  else none

/-- Line 75: `const Icon = iconMap[item.icon] || Star;` — every inherited value
    is truthy, so only `undefined` falls through to `Star`. -/
def resolveIcon (k : String) : IconLookup :=
  match iconMapGet k with
  | some v => v
  | none => .icon .star

/-! ### Visibility reveal (revision A, lines 110-161 and 74-77) -/

/-- An IntersectionObserver callback entry for the container element. -/
inductive TMEvent where
  | observerEntry (isIntersecting : Bool)
  deriving DecidableEq

/-- The `threshold` option passed to the IntersectionObserver (line 157). -/
def observerThreshold : ℚ := 1 / 5

/-- The reveal effect (lines 138-161) seen as a transition on the `visible`
    flag: `setVisible(true)` runs exactly on entries with `isIntersecting`. -/
def stepVisible (v : Bool) : TMEvent → Bool
  | .observerEntry inter => v || inter

/-- `visible` after mounting and a sequence of observer callbacks: `useState`
    initialises it to `false`, the mount effect sets it immediately under
    prefers-reduced-motion, and each callback entry folds through `stepVisible`. -/
def visibleAfter (prefersReduced : Bool) (evs : List TMEvent) : Bool :=
  evs.foldl stepVisible prefersReduced

/-- Line 77: the `start` option `MetricCard` hands to `useCountUp`. -/
def countUpStart (visible prefersReduced : Bool) : Bool := visible && !prefersReduced

/-! ### Revision B (the unnamed second revision of the component)

The helper functions, the fallback constant, the fetch effect and the rendered
list of revision B, transcribed from that file independently of revision A:
`parseNumericB` from its lines 22-30, `easeOutQuadB` from line 32,
`defaultItemsB`/`defaultMetricsB` from lines 10-19, `mountRequestsB` and
`fetchMetricsDataB` from lines 204-223, `renderItemsB` from line 250. -/

/-- Revision B `parseNumeric` (lines 22-30 of that file). -/
def parseNumericB (s : String) : ParseResult :=
  if s = "" then ⟨0, 0, ""⟩
  else
    let t := jsTrim s.data
    let ds := t.takeWhile Char.isDigit
    if ds = [] || t.any isLineTerm then ⟨0, 0, s⟩
    else
      match t.drop ds.length with
      | '.' :: r2 =>
        let fs := r2.takeWhile Char.isDigit
        if fs = [] then ⟨(digitsVal ds : ℚ), 0, String.mk ('.' :: r2)⟩
        else ⟨(digitsVal ds : ℚ) + (digitsVal fs : ℚ) / 10 ^ fs.length, fs.length,
              String.mk (r2.drop fs.length)⟩
      | rest => ⟨(digitsVal ds : ℚ), 0, String.mk rest⟩

/-- Revision B `easeOutQuad` (line 32 of that file). -/
def easeOutQuadB (t : ℚ) : ℚ := 1 - (1 - t) * (1 - t)

/-- Revision B fallback items (lines 13-18 of that file). -/
def defaultItemsB : List MetricItem :=
  [⟨"rating", "تقييم العملاء", "4.9/5", "Star"⟩,
   ⟨"shipments", "عمليات الشحن", "120K+", "Zap"⟩,
   ⟨"downloads", "عدد التحميلات", "85K+", "Download"⟩,
   ⟨"uptime", "زمن الاستجابة", "1.2s", "Gauge"⟩]

/-- Revision B `defaultMetrics` (lines 10-19 of that file). -/
def defaultMetricsB (now : String) : MetricsObj := ⟨"fallback", now, .arr defaultItemsB⟩

/-- Revision B mount-effect requests (lines 204-223 of that file). -/
def mountRequestsB (apiBase : String) : List Request := [⟨apiBase ++ "/api/metrics", 3000⟩]

/-- Revision B fetch effect (lines 205-221 of that file). -/
def fetchMetricsDataB (now : String) : FetchOutcome → MetricsObj
  | .timeoutAbort => defaultMetricsB now
  | .networkError => defaultMetricsB now
  | .response status body =>
    if httpOk status then
      match body with
      | .jnull => defaultMetricsB now
      | .jfalsyPrim => defaultMetricsB now
      | .jobj o =>
        match o.items with
        | .absent => defaultMetricsB now
        | .falsy => defaultMetricsB now
        | _ => o
    else defaultMetricsB now

/-- Revision B rendered list (line 250 of that file). -/
def renderItemsB (data : Option MetricsObj) : List MetricItem :=
  (match data with
   | some d =>
     match d.items with
     | .arr xs => xs
     | _ => defaultItemsB
   | none => defaultItemsB).take 4

/-- Revision B `useCountUp` text on the `!start` path (lines 57-62 of that
    file): the effect resets the state to the target string; the extra
    `lastIntRef` bookkeeping and the `onTick` sound callback do not touch the
    text. Once started it runs the same frame computation as revision A. -/
def useCountUpDisplayB (targetStr : String) (start : Bool) (now startTime duration : ℚ) :
    String :=
  if start = false then targetStr
  else if now < startTime then targetStr
  else countUpFrame targetStr now startTime duration

theorem isDigit_toNat {c : Char} (h : c.isDigit = true) : 48 ≤ c.toNat ∧ c.toNat ≤ 57 := by
  simp only [Char.isDigit, Bool.and_eq_true, decide_eq_true_eq, ge_iff_le] at h
  obtain ⟨h1, h2⟩ := h
  exact ⟨UInt32.le_toNat_of_le (by decide) h1, UInt32.toNat_le_of_le (by decide) h2⟩

theorem digitChar_dval {c : Char} (h : c.isDigit = true) : digitChar (dval c) = c := by
  obtain ⟨h1, _⟩ := isDigit_toNat h
  rw [digitChar, dval, Nat.add_sub_cancel' h1, Char.ofNat_toNat]

theorem dval_lt_ten {c : Char} (h : c.isDigit = true) : dval c < 10 := by
  obtain ⟨_, h2⟩ := isDigit_toNat h
  rw [dval]; omega

theorem dval_pos {c : Char} (hd : c.isDigit = true) (h0 : c ≠ '0') : 1 ≤ dval c := by
  obtain ⟨h1, _⟩ := isDigit_toNat hd
  have hne : c.toNat ≠ 48 := by
    intro h
    apply h0
    rw [← Char.ofNat_toNat c, h]
  rw [dval]
  omega

theorem foldl_digits_acc (l : List Char) (a : Nat) :
    l.foldl (fun a c => 10 * a + dval c) a
      = a * 10 ^ l.length + l.foldl (fun a c => 10 * a + dval c) 0 := by
  induction l generalizing a with
  | nil => simp
  | cons c l ih =>
    rw [List.foldl_cons, List.foldl_cons, ih (10 * a + dval c), ih (10 * 0 + dval c)]
    simp only [List.length_cons]
    ring

theorem digitsVal_cons (c : Char) (l : List Char) :
    digitsVal (c :: l) = dval c * 10 ^ l.length + digitsVal l := by
  rw [digitsVal, List.foldl_cons, foldl_digits_acc]
  rw [digitsVal]
  norm_num

theorem digitsVal_snoc (l : List Char) (c : Char) :
    digitsVal (l ++ [c]) = 10 * digitsVal l + dval c := by
  rw [digitsVal, List.foldl_append]
  rfl

theorem digitsVal_lt (l : List Char) (h : ∀ c ∈ l, c.isDigit = true) :
    digitsVal l < 10 ^ l.length := by
  induction l with
  | nil => simp [digitsVal]
  | cons c l ih =>
    have hc : dval c < 10 := dval_lt_ten (h c (List.mem_cons_self c l))
    have hl : digitsVal l < 10 ^ l.length := ih fun x hx => h x (List.mem_cons_of_mem c hx)
    rw [digitsVal_cons, List.length_cons, pow_succ]
    nlinarith

theorem digitsVal_head_pos (c : Char) (l : List Char) (hd : c.isDigit = true) (h0 : c ≠ '0') :
    1 ≤ digitsVal (c :: l) := by
  have h1 := dval_pos hd h0
  have h2 : 1 * 1 ≤ dval c * 10 ^ l.length :=
    Nat.mul_le_mul h1 (Nat.one_le_pow _ _ (by norm_num))
  rw [digitsVal_cons]
  omega

theorem natDigitsGo_congr : ∀ f1 f2 n, n < f1 → n < f2 → natDigitsGo f1 n = natDigitsGo f2 n := by
  intro f1
  induction f1 with
  | zero => intro f2 n h; omega
  | succ f ih =>
    intro f2 n h1 h2
    match f2, h2 with
    | g + 1, h2 =>
      rw [natDigitsGo, natDigitsGo]
      by_cases hn : n < 10
      · simp [hn]
      · have hlt : n / 10 < n := Nat.div_lt_self (by omega) (by norm_num)
        simp only [hn, if_false]
        rw [ih g (n / 10) (by omega) (by omega)]

theorem natDigits_lt (n : Nat) (h : n < 10) : natDigits n = [digitChar n] := by
  rw [natDigits, natDigitsGo]
  simp [h]

theorem natDigits_ge (n : Nat) (h : 10 ≤ n) :
    natDigits n = natDigits (n / 10) ++ [digitChar (n % 10)] := by
  have hlt : n / 10 < n := Nat.div_lt_self (by omega) (by norm_num)
  rw [natDigits, natDigitsGo]
  simp only [Nat.not_lt.2 h, if_false]
  rw [natDigits, natDigitsGo_congr n (n / 10 + 1) (n / 10) (by omega) (by omega)]

theorem natDigits_digitsVal : ∀ l : List Char, l ≠ [] → (∀ c ∈ l, c.isDigit = true) →
    (l.head? = some '0' → l = ['0']) → natDigits (digitsVal l) = l := by
  intro l
  induction l using List.reverseRecOn with
  | nil => intro h; exact absurd rfl h
  | append_singleton l c ih =>
    intro _ hdig hcanon
    match l, ih with
    | [], _ =>
      have hc : c.isDigit = true := hdig c (by simp)
      rw [digitsVal_snoc, digitsVal]
      simp only [List.foldl_nil, Nat.mul_zero, Nat.zero_add, List.nil_append]
      rw [natDigits_lt _ (dval_lt_ten hc), digitChar_dval hc]
    | hd :: tl, ih =>
      have hhd : hd.isDigit = true := hdig hd (by simp)
      have hc : c.isDigit = true := hdig c (by simp)
      have hd0 : hd ≠ '0' := by
        intro h
        have := hcanon (by simp [h])
        simp at this
      have hpos : 1 ≤ digitsVal (hd :: tl) := digitsVal_head_pos hd tl hhd hd0
      have hcv : dval c < 10 := dval_lt_ten hc
      rw [digitsVal_snoc]
      have hge : 10 ≤ 10 * digitsVal (hd :: tl) + dval c := by omega
      rw [natDigits_ge _ hge]
      have hdiv : (10 * digitsVal (hd :: tl) + dval c) / 10 = digitsVal (hd :: tl) := by
        omega
      have hmod : (10 * digitsVal (hd :: tl) + dval c) % 10 = dval c := by
        omega
      have hcan2 : (hd :: tl).head? = some '0' → hd :: tl = ['0'] := by
        intro hh
        have hh2 : hd = '0' := by simpa using hh
        exact absurd hh2 hd0
      have hdig2 : ∀ x ∈ hd :: tl, x.isDigit = true := by
        intro x hx
        apply hdig
        rcases List.mem_cons.1 hx with h | h
        · simp [h]
        · simp [List.mem_cons, List.mem_append, h]
      have hrec := ih (by simp) hdig2 hcan2
      rw [hdiv, hmod, digitChar_dval hc, hrec]

theorem padDigits_digitsVal : ∀ l : List Char, (∀ c ∈ l, c.isDigit = true) →
    padDigits l.length (digitsVal l) = l := by
  intro l
  induction l using List.reverseRecOn with
  | nil => intro _; rfl
  | append_singleton l c ih =>
    intro hdig
    have hc : c.isDigit = true := hdig c (by simp)
    have hcv : dval c < 10 := dval_lt_ten hc
    rw [digitsVal_snoc, List.length_append]
    simp only [List.length_singleton]
    rw [padDigits]
    have hdiv : (10 * digitsVal l + dval c) / 10 = digitsVal l := by omega
    have hmod : (10 * digitsVal l + dval c) % 10 = dval c := by omega
    rw [hdiv, hmod, digitChar_dval hc, ih (fun x hx => hdig x (by simp [hx]))]

theorem takeWhile_eq_nil_of_head {p : Char → Bool} {l : List Char}
    (h : ∀ c, l.head? = some c → p c = false) : l.takeWhile p = [] := by
  cases l with
  | nil => rfl
  | cons c l =>
    rw [List.takeWhile_cons, h c rfl]
    simp

theorem takeWhile_digits {ids rest : List Char}
    (h1 : ∀ c ∈ ids, c.isDigit = true)
    (h2 : ∀ c, rest.head? = some c → c.isDigit = false) :
    (ids ++ rest).takeWhile Char.isDigit = ids := by
  rw [List.takeWhile_append_of_pos h1, takeWhile_eq_nil_of_head h2, List.append_nil]

theorem jsTrim_nil : jsTrim [] = [] := rfl

theorem parseNumeric_ne_empty {s : String} (h : s.data ≠ []) : s ≠ "" := by
  intro he
  rw [he] at h
  exact h rfl

theorem parseNumeric_eq_of_nomatch (s : String)
    (h : (jsTrim s.data).takeWhile Char.isDigit = [] ∨ (jsTrim s.data).any isLineTerm = true) :
    parseNumeric s = ⟨0, 0, s⟩ := by
  by_cases he : s = ""
  · rw [parseNumeric, if_pos he, he]
  · rw [parseNumeric, if_neg he]
    simp only []
    rcases h with h | h
    · rw [if_pos]
      simp [h]
    · rw [if_pos]
      simp [h]

theorem parseNumeric_eq_of_int (s : String) (ids rest : List Char)
    (htrim : jsTrim s.data = ids ++ rest)
    (hne : ids ≠ []) (hdig : ∀ c ∈ ids, c.isDigit = true)
    (hrest : ∀ c, rest.head? = some c → c.isDigit = false)
    (hdot : ∀ r2 c, rest = '.' :: r2 → r2.head? = some c → c.isDigit = false)
    (hlt : (jsTrim s.data).any isLineTerm = false) :
    parseNumeric s = ⟨(digitsVal ids : ℚ), 0, String.mk rest⟩ := by
  have hs : s ≠ "" := by
    intro he
    subst he
    rw [show ("" : String).data = [] from rfl, jsTrim_nil] at htrim
    exact hne (List.append_eq_nil.1 htrim.symm).1
  have hds : (ids ++ rest).takeWhile Char.isDigit = ids := takeWhile_digits hdig hrest
  rw [htrim] at hlt
  rw [parseNumeric, if_neg hs]
  simp only [htrim, hds, List.drop_left]
  rw [if_neg (by simp [hlt, hne])]
  split
  · next a tl =>
    have hnil : List.takeWhile Char.isDigit tl = [] :=
      takeWhile_eq_nil_of_head fun c hc => hdot tl c rfl hc
    rw [if_pos hnil]
  · rfl

theorem parseNumeric_eq_of_frac (s : String) (ids fds rest : List Char)
    (htrim : jsTrim s.data = ids ++ '.' :: (fds ++ rest))
    (hne : ids ≠ []) (hdig : ∀ c ∈ ids, c.isDigit = true)
    (hfne : fds ≠ []) (hfdig : ∀ c ∈ fds, c.isDigit = true)
    (hrest : ∀ c, rest.head? = some c → c.isDigit = false)
    (hlt : (jsTrim s.data).any isLineTerm = false) :
    parseNumeric s
      = ⟨(digitsVal ids : ℚ) + (digitsVal fds : ℚ) / 10 ^ fds.length, fds.length,
         String.mk rest⟩ := by
  have hs : s ≠ "" := by
    intro he
    subst he
    rw [show ("" : String).data = [] from rfl, jsTrim_nil] at htrim
    exact hne (List.append_eq_nil.1 htrim.symm).1
  have hdotnd : ∀ c, ('.' :: (fds ++ rest)).head? = some c → c.isDigit = false := by
    intro c hc
    rw [Option.some_inj.1 hc.symm]
    rfl
  have hds : (ids ++ '.' :: (fds ++ rest)).takeWhile Char.isDigit = ids :=
    takeWhile_digits hdig hdotnd
  have hfs : (fds ++ rest).takeWhile Char.isDigit = fds := takeWhile_digits hfdig hrest
  rw [htrim] at hlt
  rw [parseNumeric, if_neg hs]
  simp only [htrim, hds, List.drop_left]
  rw [if_neg (by simp [hlt, hne])]
  simp only [hfs, List.drop_left]
  rw [if_neg hfne]

theorem floor_nat_add_half (m : Nat) : ⌊(m : ℚ) + 1 / 2⌋ = (m : ℤ) := by
  rw [Int.floor_eq_iff]
  constructor
  · push_cast
    linarith
  · push_cast
    linarith

theorem string_mk_append (a b : List Char) : String.mk a ++ String.mk b = String.mk (a ++ b) := rfl

theorem string_mk_data (s : String) : String.mk s.data = s := rfl

theorem intRepr_nat (v : Nat) : intRepr (v : ℤ) = String.mk (natDigits v) := by
  rw [intRepr, if_neg (by omega)]
  simp

theorem jsMathRound_nat (v : Nat) : jsMathRound (v : ℚ) = (v : ℤ) := by
  rw [jsMathRound, floor_nat_add_half]

theorem jsToFixed_exact (vi vf d : Nat) (hv : vf < 10 ^ d) :
    jsToFixed ((vi : ℚ) + (vf : ℚ) / 10 ^ d) d
      = String.mk (natDigits vi) ++ "." ++ String.mk (padDigits d vf) := by
  have hd10 : ((10 : ℚ) ^ d) ≠ 0 := by positivity
  have hmul : ((vi : ℚ) + (vf : ℚ) / 10 ^ d) * 10 ^ d = ((vi * 10 ^ d + vf : Nat) : ℚ) := by
    field_simp
  rw [jsToFixed]
  simp only [hmul, floor_nat_add_half, Int.toNat_ofNat]
  have hdiv : (vi * 10 ^ d + vf) / 10 ^ d = vi := by
    rw [Nat.mul_comm vi, Nat.mul_add_div (Nat.pos_pow_of_pos d (by norm_num)),
      Nat.div_eq_of_lt hv, Nat.add_zero]
  have hmod : (vi * 10 ^ d + vf) % 10 ^ d = vf := by
    rw [Nat.mul_comm vi, Nat.mul_add_mod, Nat.mod_eq_of_lt hv]
  rw [hdiv, hmod]

theorem easeOutQuad_mono {a b : ℚ} (hab : a ≤ b) (hb : b ≤ 1) :
    easeOutQuad a ≤ easeOutQuad b := by
  rw [easeOutQuad, easeOutQuad]
  nlinarith

theorem easeOutQuad_nonneg {t : ℚ} (h0 : 0 ≤ t) (h1 : t ≤ 1) : 0 ≤ easeOutQuad t := by
  rw [easeOutQuad]
  nlinarith

theorem easeOutQuad_le_one (t : ℚ) : easeOutQuad t ≤ 1 := by
  rw [easeOutQuad]
  nlinarith

theorem parseNumeric_n_nonneg (s : String) : 0 ≤ (parseNumeric s).n := by
  simp only [parseNumeric]
  split
  · norm_num
  · split
    · norm_num
    · split
      · split
        · simp only []
          positivity
        · simp only []
          positivity
      · simp only []
        positivity

theorem countUpFrame_one_t (s : String) (st dur : ℚ) (hdur : 0 < dur) :
    countUpFrame s (st + dur) st dur =
      (if 0 < (parseNumeric s).decimals then
        jsToFixed (parseNumeric s).n (parseNumeric s).decimals
       else intRepr (jsMathRound (parseNumeric s).n)) ++ (parseNumeric s).suffix := by
  rw [countUpFrame]
  have ht : min 1 ((st + dur - st) / dur) = 1 := by
    rw [add_sub_cancel_left, div_self (ne_of_gt hdur), min_self]
  rw [ht]
  have he : easeOutQuad 1 = 1 := by norm_num [easeOutQuad]
  rw [he, mul_one]

theorem foldl_stepVisible_true (evs : List TMEvent) : evs.foldl stepVisible true = true := by
  induction evs with
  | nil => rfl
  | cons e evs ih =>
    cases e with
    | observerEntry i =>
      rw [List.foldl_cons]
      simpa [stepVisible] using ih

theorem foldl_stepVisible_mem (evs : List TMEvent) (b : Bool)
    (h : evs.foldl stepVisible b = true) : b = true ∨ TMEvent.observerEntry true ∈ evs := by
  induction evs generalizing b with
  | nil => exact Or.inl h
  | cons e evs ih =>
    rw [List.foldl_cons] at h
    rcases ih _ h with hb | hm
    · cases e with
      | observerEntry i =>
        cases i
        · left
          simpa [stepVisible] using hb
        · right
          simp
    · right
      exact List.mem_cons_of_mem _ hm

/-- C5: `easeOutQuad` equals `t ↦ 1 - (1 - t)^2`, maps 0 to 0 and 1 to 1, and is
    monotonically nondecreasing on `[0, 1]`, so it is a valid ease-out curve. -/
theorem easeOutQuad_valid_easing :
    (∀ t : ℚ, easeOutQuad t = 1 - (1 - t) ^ 2) ∧
    easeOutQuad 0 = 0 ∧ easeOutQuad 1 = 1 ∧
    (∀ a b : ℚ, 0 ≤ a → a ≤ b → b ≤ 1 → easeOutQuad a ≤ easeOutQuad b) := by
  refine ⟨fun t => by rw [easeOutQuad]; ring, by norm_num [easeOutQuad],
    by norm_num [easeOutQuad], fun a b h0 hab hb => easeOutQuad_mono hab hb⟩

/-- Witness for C5 at `a = 1/4`, `b = 1/2`. -/
theorem easeOutQuad_valid_easing_witness :
    easeOutQuad (1 / 4) ≤ easeOutQuad (1 / 2) :=
  easeOutQuad_valid_easing.2.2.2 (1 / 4) (1 / 2) (by norm_num) (by norm_num) (by norm_num)

/-- C10: whenever the `start` option of `useCountUp` is false, the hook's text is
    the target value string, exactly and unchanged, in both revisions. -/
theorem useCountUp_no_start_identity :
    ∀ (s : String) (now st dur : ℚ),
      useCountUpDisplay s false now st dur = s ∧ useCountUpDisplayB s false now st dur = s :=
  fun _ _ _ _ => ⟨rfl, rfl⟩

/-- C7: the helper functions, the fallback constant, the fetch logic and the
    slice-to-four rendering rule of the two revisions are extensionally equal. -/
theorem revisions_extensionally_equal :
    parseNumericB = parseNumeric ∧ easeOutQuadB = easeOutQuad ∧
    defaultItemsB = defaultItems ∧ defaultMetricsB = defaultMetrics ∧
    mountRequestsB = mountRequests ∧ fetchMetricsDataB = fetchMetricsData ∧
    renderItemsB = renderItems ∧ useCountUpDisplayB = useCountUpDisplay :=
  ⟨rfl, rfl, rfl, rfl, rfl, rfl, rfl, rfl⟩

/-- C6: `visible` starts false, becomes true only through an intersecting
    observer entry (at the configured threshold 0.2) or immediately under
    prefers-reduced-motion, and a card's count-up runs only when `visible`. -/
theorem visible_reveal_spec :
    visibleAfter false [] = false ∧
    (∀ evs, visibleAfter false evs = true → TMEvent.observerEntry true ∈ evs) ∧
    (∀ evs, visibleAfter true evs = true) ∧
    observerThreshold = 1 / 5 ∧
    (∀ v pr, countUpStart v pr = true → v = true) := by
  refine ⟨rfl, ?_, foldl_stepVisible_true, rfl, ?_⟩
  · intro evs h
    rcases foldl_stepVisible_mem evs false h with hb | hm
    · exact absurd hb (by simp)
    · exact hm
  · intro v pr h
    rw [countUpStart, Bool.and_eq_true] at h
    exact h.1

/-- Witness for C6: one intersecting entry reveals the component, and a running
    count-up implies visibility. -/
theorem visible_reveal_spec_witness :
    TMEvent.observerEntry true ∈ [TMEvent.observerEntry true] :=
  visible_reveal_spec.2.1 [TMEvent.observerEntry true] (by decide)

/-- C1: the mount effect issues exactly one request, to `apiBase ++ "/api/metrics"`,
    with a 3000 ms abort timer, and every failure path (abort, network error,
    non-ok status, null JSON, missing `items`) stores `defaultMetrics`. -/
theorem fetch_single_request_with_fallback :
    (∀ apiBase, mountRequests apiBase = [⟨apiBase ++ "/api/metrics", 3000⟩]) ∧
    (∀ apiBase, (mountRequests apiBase).length = 1) ∧
    (∀ now, fetchMetricsData now .timeoutAbort = defaultMetrics now) ∧
    (∀ now, fetchMetricsData now .networkError = defaultMetrics now) ∧
    (∀ now status body, httpOk status = false →
      fetchMetricsData now (.response status body) = defaultMetrics now) ∧
    (∀ now status, fetchMetricsData now (.response status .jnull) = defaultMetrics now) ∧
    (∀ now status o, o.items = .absent →
      fetchMetricsData now (.response status (.jobj o)) = defaultMetrics now) := by
  refine ⟨fun _ => rfl, fun _ => rfl, fun _ => rfl, fun _ => rfl, ?_, ?_, ?_⟩
  · intro now status body h
    simp only [fetchMetricsData.eq_def]
    simp [h]
  · intro now status
    simp only [fetchMetricsData.eq_def]
    split <;> rfl
  · intro now status o h
    simp only [fetchMetricsData.eq_def, h]
    split <;> rfl

/-- Witness for C1: a 404 response falls back to the default metrics. -/
theorem fetch_single_request_with_fallback_witness :
    fetchMetricsData "t0" (.response 404 .jnull) = defaultMetrics "t0" :=
  fetch_single_request_with_fallback.2.2.2.2.1 "t0" 404 .jnull (by decide)

/-- C4: the rendered list always has at most four entries: the slice of the
    fetched array when `items` is an array, else the fallback list of exactly
    four tuples keyed rating, shipments, downloads, uptime. -/
theorem renderItems_at_most_four :
    (∀ data, (renderItems data).length ≤ 4) ∧
    (∀ d xs, d.items = .arr xs → renderItems (some d) = xs.take 4) ∧
    (∀ d, (∀ xs, d.items ≠ .arr xs) → renderItems (some d) = defaultItems) ∧
    defaultItems.length = 4 ∧
    defaultItems.map MetricItem.key = ["rating", "shipments", "downloads", "uptime"] := by
  refine ⟨?_, ?_, ?_, rfl, rfl⟩
  · intro data
    rw [renderItems.eq_def]
    exact List.length_take_le 4 _
  · intro d xs h
    obtain ⟨di, du, items⟩ := d
    dsimp only [] at h
    subst h
    rfl
  · intro d h
    obtain ⟨di, du, items⟩ := d
    cases items with
    | absent => rfl
    | falsy => rfl
    | truthyNonArray => rfl
    | arr xs => exact absurd rfl (h xs)

/-- Witness for C4: a six-element payload renders as its first four items. -/
theorem renderItems_at_most_four_witness :
    renderItems (some ⟨"m", "t", .arr (defaultItems ++ defaultItems)⟩)
      = (defaultItems ++ defaultItems).take 4 :=
  renderItems_at_most_four.2.1 ⟨"m", "t", .arr (defaultItems ++ defaultItems)⟩
    (defaultItems ++ defaultItems) rfl

/-- C9 counterexample: `"constructor"` is none of the four keys, yet
    `iconMap["constructor"] || Star` is not the Star fallback — the lookup hits
    `Object.prototype.constructor`, which is truthy. -/
theorem iconMap_prototype_counterexample :
    "constructor" ∉ ["Star", "Zap", "Download", "Gauge"] ∧
    resolveIcon "constructor" ≠ IconLookup.icon IconComp.star := by
  decide

/-- C9 amended: for every icon string that is neither one of the four own keys
    nor an inherited `Object.prototype` property name, the lookup falls back to
    the Star icon. -/
theorem iconMap_fallback_amended :
    ∀ k : String, k ∉ ["Star", "Zap", "Download", "Gauge"] → k ∉ objectProtoProps →
      resolveIcon k = IconLookup.icon IconComp.star := by
  intro k h1 h2
  simp only [List.mem_cons, List.not_mem_nil, or_false, not_or] at h1
  obtain ⟨hs, hz, hd, hg⟩ := h1
  rw [resolveIcon, iconMapGet, if_neg hs, if_neg hz, if_neg hd, if_neg hg, if_neg h2]

/-- Witness for C9 at the unknown key `"Shield"`. -/
theorem iconMap_fallback_amended_witness :
    resolveIcon "Shield" = IconLookup.icon IconComp.star :=
  iconMap_fallback_amended "Shield" (by decide) (by decide)

/-- C8: the parsed target is nonnegative, and for frames at or after the start
    the displayed value stays within `[0, n]` and is nondecreasing as the frame
    clock advances. -/
theorem countUp_display_invariants :
    (∀ x : Option String, 0 ≤ (parseNumericJS x).n) ∧
    (∀ n st dur now : ℚ, 0 ≤ n → 0 < dur → st ≤ now →
      0 ≤ displayedValue n now st dur ∧ displayedValue n now st dur ≤ n) ∧
    (∀ n st dur now1 now2 : ℚ, 0 ≤ n → 0 < dur → st ≤ now1 → now1 ≤ now2 →
      displayedValue n now1 st dur ≤ displayedValue n now2 st dur) := by
  refine ⟨?_, ?_, ?_⟩
  · intro x
    cases x with
    | none => norm_num [parseNumericJS]
    | some s => exact parseNumeric_n_nonneg s
  · intro n st dur now hn hdur hst
    have h0 : 0 ≤ (now - st) / dur := div_nonneg (by linarith) (le_of_lt hdur)
    have ht0 : 0 ≤ min 1 ((now - st) / dur) := le_min (by norm_num) h0
    have ht1 : min 1 ((now - st) / dur) ≤ 1 := min_le_left _ _
    constructor
    · exact mul_nonneg hn (easeOutQuad_nonneg ht0 ht1)
    · calc n * easeOutQuad (min 1 ((now - st) / dur))
          ≤ n * 1 := mul_le_mul_of_nonneg_left (easeOutQuad_le_one _) hn
        _ = n := mul_one n
  · intro n st dur now1 now2 hn hdur h1 h2
    apply mul_le_mul_of_nonneg_left _ hn
    apply easeOutQuad_mono _ (min_le_left _ _)
    apply min_le_min le_rfl
    exact (div_le_div_iff_of_pos_right hdur).2 (by linarith)

/-- Witness for C8: at the midpoint frame the displayed value of a count to 5
    lies between 0 and 5. -/
theorem countUp_display_invariants_witness :
    0 ≤ displayedValue 5 1 0 2 ∧ displayedValue 5 1 0 2 ≤ 5 :=
  countUp_display_invariants.2.1 5 0 2 1 (by norm_num) (by norm_num) (by norm_num)

/-- C2 counterexample: `"1\nx"` trimmed begins with the numeral `1`, yet
    `parseNumeric` does not return `{n: 1, decimals: 0, suffix: "\nx"}` — the
    regex fails because `.*` cannot match across the line feed, so the whole
    original string comes back as the suffix with `n = 0`. -/
theorem parseNumeric_lineTerm_counterexample :
    parseNumeric "1\nx" ≠ ⟨1, 0, "\nx"⟩ ∧ parseNumeric "1\nx" = ⟨0, 0, "1\nx"⟩ := by
  constructor
  · decide
  · decide

/-- C2 amended: `parseNumeric` behaves as claimed, with the proviso that the
    regex match additionally requires the trimmed string to contain no
    ECMAScript LineTerminator (an unflagged `.` never matches one): a non-string
    or empty input yields `{0, 0, ""}`; a trimmed string that does not begin
    with a digit, or that contains a LineTerminator, yields `{0, 0, original}`;
    otherwise `n` is the value of the greedy leading numeral, `decimals` the
    number of digits after its dot (0 with no dot), and `suffix` the rest of the
    trimmed string. -/
theorem parseNumeric_spec_amended :
    parseNumericJS none = ⟨0, 0, ""⟩ ∧
    parseNumericJS (some "") = ⟨0, 0, ""⟩ ∧
    (∀ s : String,
      (jsTrim s.data).takeWhile Char.isDigit = [] ∨ (jsTrim s.data).any isLineTerm = true →
      parseNumericJS (some s) = ⟨0, 0, s⟩) ∧
    (∀ (s : String) (ids rest : List Char),
      jsTrim s.data = ids ++ rest →
      ids ≠ [] → (∀ c ∈ ids, c.isDigit = true) →
      (∀ c, rest.head? = some c → c.isDigit = false) →
      (∀ r2 c, rest = '.' :: r2 → r2.head? = some c → c.isDigit = false) →
      (jsTrim s.data).any isLineTerm = false →
      parseNumericJS (some s) = ⟨(digitsVal ids : ℚ), 0, String.mk rest⟩) ∧
    (∀ (s : String) (ids fds rest : List Char),
      jsTrim s.data = ids ++ '.' :: (fds ++ rest) →
      ids ≠ [] → (∀ c ∈ ids, c.isDigit = true) →
      fds ≠ [] → (∀ c ∈ fds, c.isDigit = true) →
      (∀ c, rest.head? = some c → c.isDigit = false) →
      (jsTrim s.data).any isLineTerm = false →
      parseNumericJS (some s)
        = ⟨(digitsVal ids : ℚ) + (digitsVal fds : ℚ) / 10 ^ fds.length, fds.length,
           String.mk rest⟩) := by
  refine ⟨rfl, rfl, ?_, ?_, ?_⟩
  · intro s h
    exact parseNumeric_eq_of_nomatch s h
  · intro s ids rest htrim hne hdig hrest hdot hlt
    exact parseNumeric_eq_of_int s ids rest htrim hne hdig hrest hdot hlt
  · intro s ids fds rest htrim hne hdig hfne hfdig hrest hlt
    exact parseNumeric_eq_of_frac s ids fds rest htrim hne hdig hfne hfdig hrest hlt

/-- Witness for C2: the fallback value string `"4.9/5"` parses to
    `{n: 4.9, decimals: 1, suffix: "/5"}`. -/
theorem parseNumeric_spec_amended_witness :
    parseNumericJS (some "4.9/5")
      = ⟨(digitsVal ['4'] : ℚ) + (digitsVal ['9'] : ℚ) / 10 ^ (['9'] : List Char).length,
         (['9'] : List Char).length, String.mk ['/', '5']⟩ :=
  parseNumeric_spec_amended.2.2.2.2 "4.9/5" ['4'] ['9'] ['/', '5'] (by decide) (by decide)
    (by decide) (by decide) (by decide)
    (by intro c hc; simp only [List.head?_cons, Option.some.injEq] at hc; rw [← hc]; rfl)
    (by decide)

/-- C3 counterexample: the value string `"07"` trims to itself and begins with a
    decimal numeral, yet the final frame displays `"7"`, not the target string. -/
theorem countUp_roundTrip_counterexample :
    useCountUpDisplay "07" true 1 0 1 ≠ "07" ∧ useCountUpDisplay "07" true 1 0 1 = "7" := by
  have hp : parseNumeric "07" = ⟨(digitsVal ['0', '7'] : ℚ), 0, String.mk []⟩ :=
    parseNumeric_eq_of_int "07" ['0', '7'] [] (by decide) (by decide) (by decide)
      (fun c hc => Option.noConfusion hc) (fun r2 c h => List.noConfusion h) (by decide)
  have h7 : useCountUpDisplay "07" true 1 0 1 = "7" := by
    nth_rewrite 1 [show (1 : ℚ) = 0 + 1 by norm_num]
    rw [useCountUpDisplay, if_neg (by simp), if_neg (not_lt.2 (by norm_num)),
      countUpFrame_one_t "07" 0 1 (by norm_num), hp]
    simp only [lt_irrefl, if_false]
    rw [jsMathRound_nat, intRepr_nat]
    rfl
  refine ⟨?_, h7⟩
  rw [h7]
  decide

/-- C3 amended: when the animation reaches its final frame (`now = startTime +
    duration`, so `t = 1` and `eased = 1`), the displayed text is the parsed
    number formatted at the parsed decimal count followed by the parsed suffix;
    this round-trips to the target value string itself provided the target
    carries no surrounding whitespace, no LineTerminator, writes its numeral
    canonically (no superfluous leading zero), and the numeral has at most 15
    significant digits. The digit bound is what ties the exact-rational model to
    the program: a decimal of at most 15 significant digits sits below `10^15`
    (so neither `toString` nor `toFixed` ever takes the exponential branch JS
    enters at `10^21`) and survives the binary64 rounding of `parseFloat` — its
    double is within `2^-52 * 10^15 < 1/2` units of the scaled integer, so the
    formatted digits are recovered exactly. Without the bound the round-trip
    fails on the program: `"1000000000000000000000"` displays `"1e+21"` and
    `"9007199254740993"` displays `"9007199254740992"`. Stated for both shapes
    of numeral: without and with a fractional part. -/
theorem countUp_final_frame_roundTrip :
    (∀ (s : String) (ids rest : List Char) (st dur : ℚ),
      0 < dur →
      jsTrim s.data = s.data →
      s.data = ids ++ rest →
      ids ≠ [] → (∀ c ∈ ids, c.isDigit = true) →
      (ids.head? = some '0' → ids = ['0']) →
      ids.length ≤ 15 →
      (∀ c, rest.head? = some c → c.isDigit = false) →
      (∀ r2 c, rest = '.' :: r2 → r2.head? = some c → c.isDigit = false) →
      (jsTrim s.data).any isLineTerm = false →
      useCountUpDisplay s true (st + dur) st dur = s) ∧
    (∀ (s : String) (ids fds rest : List Char) (st dur : ℚ),
      0 < dur →
      jsTrim s.data = s.data →
      s.data = ids ++ '.' :: (fds ++ rest) →
      ids ≠ [] → (∀ c ∈ ids, c.isDigit = true) →
      (ids.head? = some '0' → ids = ['0']) →
      fds ≠ [] → (∀ c ∈ fds, c.isDigit = true) →
      ids.length + fds.length ≤ 15 →
      (∀ c, rest.head? = some c → c.isDigit = false) →
      (jsTrim s.data).any isLineTerm = false →
      useCountUpDisplay s true (st + dur) st dur = s) := by
  constructor
  · intro s ids rest st dur hdur htid hdecomp hne hdig hcanon hdigits hrest hdot hlt
    have htrim : jsTrim s.data = ids ++ rest := by rw [htid, hdecomp]
    have hp : parseNumeric s = ⟨(digitsVal ids : ℚ), 0, String.mk rest⟩ :=
      parseNumeric_eq_of_int s ids rest htrim hne hdig hrest hdot hlt
    rw [useCountUpDisplay, if_neg (by simp), if_neg (by push_neg; linarith),
      countUpFrame_one_t s st dur hdur, hp]
    simp only [lt_irrefl, if_false]
    rw [jsMathRound_nat, intRepr_nat, natDigits_digitsVal ids hne hdig hcanon,
      string_mk_append]
    rw [← hdecomp, string_mk_data]
  · intro s ids fds rest st dur hdur htid hdecomp hne hdig hcanon hfne hfdig hdigits hrest hlt
    have htrim : jsTrim s.data = ids ++ '.' :: (fds ++ rest) := by rw [htid, hdecomp]
    have hp : parseNumeric s
        = ⟨(digitsVal ids : ℚ) + (digitsVal fds : ℚ) / 10 ^ fds.length, fds.length,
           String.mk rest⟩ :=
      parseNumeric_eq_of_frac s ids fds rest htrim hne hdig hfne hfdig hrest hlt
    have hdpos : 0 < fds.length := List.length_pos.2 hfne
    rw [useCountUpDisplay, if_neg (by simp), if_neg (by push_neg; linarith),
      countUpFrame_one_t s st dur hdur, hp]
    simp only [hdpos, if_true]
    rw [jsToFixed_exact (digitsVal ids) (digitsVal fds) fds.length (digitsVal_lt fds hfdig),
      natDigits_digitsVal ids hne hdig hcanon, padDigits_digitsVal fds hfdig]
    rw [show ("." : String) = String.mk ['.'] from rfl, string_mk_append, string_mk_append,
      string_mk_append]
    rw [show (ids ++ ['.']) ++ fds ++ rest = ids ++ '.' :: (fds ++ rest) by simp]
    rw [← hdecomp, string_mk_data]

/-- Witness for C3: the fallback value `"4.9/5"` (two significant digits) is
    displayed exactly at the end of its count-up. -/
theorem countUp_final_frame_roundTrip_witness :
    useCountUpDisplay "4.9/5" true (0 + 2000) 0 2000 = "4.9/5" :=
  countUp_final_frame_roundTrip.2 "4.9/5" ['4'] ['9'] ['/', '5'] 0 2000 (by norm_num)
    (by decide) (by decide) (by decide) (by decide) (by decide) (by decide) (by decide)
    (by decide)
    (by intro c hc; simp only [List.head?_cons, Option.some.injEq] at hc; rw [← hc]; rfl)
    (by decide)
